import Mathlib

/-!
Verification of the number-to-words utility of `efa_word_generator.py`
(`number_to_words` and `price_to_words`).

The Python functions are embedded shallowly:
* Python `list` indexing (including negative indices counting from the
  back) is modelled by `pyGet`; an out-of-range index, which raises
  `IndexError` in Python, is modelled as `none`, and the functions
  return `Option String` accordingly.
* Python `//` and `%` are floor division and floor modulus, modelled by
  `Int.fdiv` and `Int.fmod`.
* `price_to_words` receives a Python float; the arithmetic is modelled
  exactly over `ℚ`, with `int(...)` as truncation toward zero (`pyInt`)
  and `round(...)` as round-half-to-even (`pyRound`), Python's rounding
  convention.
-/

namespace EfaWordGenerator

/-- Python list indexing for a list of strings: a nonnegative index counts
from the front, a negative index counts from the back; an out-of-range
index (`IndexError`) is `none`. -/
def pyGet (xs : List String) (i : Int) : Option String :=
  let j : Int := if i < 0 then (xs.length : Int) + i else i
  if 0 ≤ j ∧ j < (xs.length : Int) then xs.get? j.toNat else none

/-- The `ones` table of `number_to_words`. -/
def ones : List String :=
  ["", "One", "Two", "Three", "Four", "Five", "Six", "Seven", "Eight", "Nine"]

/-- The `tens` table of `number_to_words`. -/
def tens : List String :=
  ["", "", "Twenty", "Thirty", "Forty", "Fifty", "Sixty", "Seventy", "Eighty", "Ninety"]

/-- The `teens` table of `number_to_words`. -/
def teens : List String :=
  ["Ten", "Eleven", "Twelve", "Thirteen", "Fourteen", "Fifteen",
   "Sixteen", "Seventeen", "Eighteen", "Nineteen"]

/-- The recursion of `convert_below_thousand`, with explicit fuel so that
the definition is structurally recursive.  The single recursive call is on
`n.fmod 100`, which lies in `[0, 100)` and triggers no further recursion,
so any fuel `≥ 2` computes the Python function exactly
(`convert_below_thousand_eq` below certifies the recurrence). -/
def cbtFuel : Nat → Int → Option String
  | 0, _ => none
  | fuel + 1, n =>
    if n = 0 then some ""
    else if n < 10 then pyGet ones n
    else if n < 20 then pyGet teens (n - 10)
    else if n < 100 then
      (pyGet tens (n.fdiv 10)).bind fun t =>
        (if n.fmod 10 ≠ 0 then (pyGet ones (n.fmod 10)).map (fun o => " " ++ o)
         else some "").map fun tail => t ++ tail
    else
      (pyGet ones (n.fdiv 100)).bind fun h =>
        (if n.fmod 100 ≠ 0 then (cbtFuel fuel (n.fmod 100)).map (fun w => " and " ++ w)
         else some "").map fun tail => h ++ " Hundred" ++ tail

/-- The source's `convert_below_thousand`, the inner helper of `number_to_words`. -/
def convert_below_thousand (n : Int) : Option String := cbtFuel 2 n

/-- The source's `number_to_words`: convert number to words. -/
def number_to_words (num : Int) : Option String :=
  if num = 0 then some "Zero"
  else if num < 1000 then convert_below_thousand num
  else if num < 1000000 then
    let thousands := num.fdiv 1000
    let remainder := num.fmod 1000
    (convert_below_thousand thousands).bind fun t =>
      let result := t ++ " Thousand"
      if remainder > 0 then
        (convert_below_thousand remainder).map fun r => result ++ " " ++ r
      else some result
  else
    let millions := num.fdiv 1000000
    let remainder := num.fmod 1000000
    (convert_below_thousand millions).bind fun m =>
      let result := m ++ " Million"
      if remainder > 0 then
        if remainder ≥ 1000 then
          (convert_below_thousand (remainder.fdiv 1000)).bind fun a =>
            let result := result ++ " " ++ a ++ " Thousand"
            if remainder.fmod 1000 > 0 then
              (convert_below_thousand (remainder.fmod 1000)).map fun b => result ++ " " ++ b
            else some result
        else
          (convert_below_thousand remainder).map fun r => result ++ " " ++ r
      else some result

/-- Python `int(...)` on a (modelled) float: truncation toward zero. -/
def pyInt (q : ℚ) : Int := if 0 ≤ q then ⌊q⌋ else ⌈q⌉

/-- Python `round(...)` on a (modelled) float: round half to even. -/
def pyRound (q : ℚ) : Int :=
  let f := ⌊q⌋
  let r := q - f
  if r < 1/2 then f
  else if 1/2 < r then f + 1
  else if f % 2 = 0 then f else f + 1

/-- The source's `price_to_words`: convert price to words. -/
def price_to_words (price : ℚ) : Option String :=
  let pounds := pyInt price
  let pence := pyRound ((price - pounds) * 100)
  (number_to_words pounds).bind fun w =>
    let result := w ++ " Pounds"
    if pence > 0 then
      (number_to_words pence).map fun p => result ++ " and " ++ p ++ " Pence"
    else some result

/-- No two consecutive space characters. -/
def noDoubleSpace : List Char → Bool
  | [] => true
  | [_] => true
  | a :: b :: rest => !(a == ' ' && b == ' ') && noDoubleSpace (b :: rest)

/-- The optional character (head or last of a string) is not whitespace. -/
def notWhitespaceOpt : Option Char → Bool
  | none => true
  | some c => !c.isWhitespace

/-- A rendered words string is tidy when it contains no two consecutive
space characters and neither starts nor ends with whitespace. -/
def tidy (s : String) : Bool :=
  noDoubleSpace s.data && notWhitespaceOpt s.data.head? && notWhitespaceOpt s.data.getLast?

/-- Decidable sweep condition for `convert_below_thousand` on `[0, 999]`:
it succeeds, its output is tidy, and the output is nonempty away from 0. -/
def cbtCheck (k : Nat) : Bool :=
  match convert_below_thousand (k : Int) with
  | none => false
  | some s => tidy s && (k == 0 || s != "")

/-- The spec's ones words, `"One"` … `"Nine"`, for `n` in `[1, 9]`. -/
def specOnesWord (n : Nat) : String :=
  (["One", "Two", "Three", "Four", "Five", "Six", "Seven", "Eight",
      "Nine"].get? (n - 1)).getD ""

/-- The spec's irregular teen words, `"Ten"` … `"Nineteen"`, for `n` in
`[10, 19]`. -/
def specTeenWord (n : Nat) : String :=
  (["Ten", "Eleven", "Twelve", "Thirteen", "Fourteen", "Fifteen", "Sixteen",
      "Seventeen", "Eighteen", "Nineteen"].get? (n - 10)).getD ""

/-- The spec's tens words, `"Twenty"` … `"Ninety"`, for `n` in `[20, 99]`
(selected by the tens digit). -/
def specTensWord (n : Nat) : String :=
  (["Twenty", "Thirty", "Forty", "Fifty", "Sixty", "Seventy", "Eighty",
      "Ninety"].get? (n / 10 - 2)).getD ""

/-- The spec's lookup reference on `[0, 99]`: `"Zero"` at 0; the ones word
for 1–9; the irregular teen word for 10–19; for 20–99 the tens word, plus
a space and the ones word exactly when `n % 10 ≠ 0`. -/
def specBelowHundred (n : Nat) : String :=
  if n = 0 then "Zero"
  else if n < 10 then specOnesWord n
  else if n < 20 then specTeenWord n
  else specTensWord n ++ (if n % 10 ≠ 0 then " " ++ specOnesWord (n % 10) else "")

/-- Follows the spec's words for `currencyToWords` with the default units
`"Pounds"` and `"Pence"`: split the amount into the truncated whole part
and the fractional remainder rounded to hundredths; output the words for
the whole plus `" "` plus the major unit, and when the fraction is
positive append `" and "` plus the words for the fraction plus `" "` plus
the minor unit; when the fraction is zero the minor-unit clause is
omitted entirely. -/
def spec_currencyToWords (amount : ℚ) : Option String :=
  let whole := pyInt amount
  let fraction := pyRound ((amount - whole) * 100)
  (number_to_words whole).bind fun w =>
    if fraction > 0 then
      (number_to_words fraction).map fun f =>
        w ++ " " ++ "Pounds" ++ " and " ++ f ++ " " ++ "Pence"
    else some (w ++ " " ++ "Pounds")

/-- Below 100 the body of `cbtFuel` makes no recursive call, so the
result does not depend on the fuel. -/
theorem cbtFuel_one (f : Nat) (n : Int) (hn : n < 100) :
    cbtFuel (f + 1) n = cbtFuel (0 + 1) n := by
  simp only [cbtFuel]
  split_ifs <;> first | rfl | omega

/-- The fuel-2 `convert_below_thousand` satisfies the source's defining
recurrence, whose single recursive call is at `n.fmod 100`. -/
theorem convert_below_thousand_eq (n : Int) :
    convert_below_thousand n =
      if n = 0 then some ""
      else if n < 10 then pyGet ones n
      else if n < 20 then pyGet teens (n - 10)
      else if n < 100 then
        (pyGet tens (n.fdiv 10)).bind fun t =>
          (if n.fmod 10 ≠ 0 then (pyGet ones (n.fmod 10)).map (fun o => " " ++ o)
           else some "").map fun tail => t ++ tail
      else
        (pyGet ones (n.fdiv 100)).bind fun h =>
          (if n.fmod 100 ≠ 0 then
             (convert_below_thousand (n.fmod 100)).map (fun w => " and " ++ w)
           else some "").map fun tail => h ++ " Hundred" ++ tail := by
  have hm : n.fmod 100 < 100 := Int.fmod_lt_of_pos n (by norm_num)
  have hs : convert_below_thousand (n.fmod 100) = cbtFuel (0 + 1) (n.fmod 100) :=
    cbtFuel_one 1 (n.fmod 100) hm
  rw [hs]
  show cbtFuel (1 + 1) n = _
  simp only [cbtFuel]

set_option maxRecDepth 10000 in
theorem cbt_check_sweep : ∀ k : Nat, k ≤ 999 → cbtCheck k = true := by decide

/-- On `[0, 999]` the helper succeeds, its output is tidy, and the output
is nonempty away from 0. -/
theorem cbt_exists (k : Nat) (hk : k ≤ 999) :
    ∃ s, convert_below_thousand (k : Int) = some s ∧ tidy s = true ∧ (k ≠ 0 → s ≠ "") := by
  have h := cbt_check_sweep k hk
  rw [cbtCheck] at h
  rcases hc : convert_below_thousand (k : Int) with _ | s
  · rw [hc] at h
    exact absurd h (by simp)
  · rw [hc] at h
    simp only [Bool.and_eq_true, Bool.or_eq_true, beq_iff_eq, bne_iff_ne] at h
    refine ⟨s, rfl, h.1, fun hk0 => ?_⟩
    rcases h.2 with h0 | hne
    · exact absurd h0 hk0
    · exact hne

/-- On `[1, 999]`, `number_to_words` delegates to `convert_below_thousand`. -/
theorem ntw_below (k : Nat) (h1 : 1 ≤ k) (h2 : k ≤ 999) :
    number_to_words (k : Int) = convert_below_thousand (k : Int) := by
  rw [number_to_words, if_neg (by omega : ¬((k : Int) = 0)),
    if_pos (by omega : (k : Int) < 1000)]

theorem fdiv_cast_1000 (n : Nat) : (n : Int).fdiv 1000 = ((n / 1000 : Nat) : Int) := by
  exact_mod_cast (Int.ofNat_fdiv n 1000).symm

theorem fmod_cast_1000 (n : Nat) : (n : Int).fmod 1000 = ((n % 1000 : Nat) : Int) := by
  exact_mod_cast (Int.ofNat_fmod n 1000).symm

theorem fdiv_cast_million (n : Nat) :
    (n : Int).fdiv 1000000 = ((n / 1000000 : Nat) : Int) := by
  exact_mod_cast (Int.ofNat_fdiv n 1000000).symm

theorem fmod_cast_million (n : Nat) :
    (n : Int).fmod 1000000 = ((n % 1000000 : Nat) : Int) := by
  exact_mod_cast (Int.ofNat_fmod n 1000000).symm

/-- Gluing two lists without a double space, given a safe boundary. -/
theorem noDoubleSpace_append (l₁ l₂ : List Char) (h₁ : noDoubleSpace l₁ = true)
    (h₂ : noDoubleSpace l₂ = true)
    (hb : ∀ c₁ c₂, l₁.getLast? = some c₁ → l₂.head? = some c₂ → ¬(c₁ = ' ' ∧ c₂ = ' ')) :
    noDoubleSpace (l₁ ++ l₂) = true := by
  induction l₁ with
  | nil => simpa using h₂
  | cons a t ih =>
    cases t with
    | nil =>
      cases l₂ with
      | nil => simpa using h₁
      | cons b t₂ =>
        show noDoubleSpace (a :: b :: t₂) = true
        have hab := hb a b rfl rfl
        rw [noDoubleSpace]
        simp only [Bool.and_eq_true, Bool.not_eq_true']
        refine ⟨?_, h₂⟩
        by_cases ha : a = ' '
        · by_cases hb2 : b = ' '
          · exact absurd ⟨ha, hb2⟩ hab
          · simp [hb2]
        · simp [ha]
    | cons b t' =>
      rw [noDoubleSpace] at h₁
      simp only [Bool.and_eq_true, Bool.not_eq_true'] at h₁
      show noDoubleSpace (a :: b :: (t' ++ l₂)) = true
      rw [noDoubleSpace]
      simp only [Bool.and_eq_true, Bool.not_eq_true']
      refine ⟨h₁.1, ?_⟩
      show noDoubleSpace ((b :: t') ++ l₂) = true
      refine ih h₁.2 fun c₁ c₂ hl hh => hb c₁ c₂ ?_ hh
      rw [List.getLast?_cons_cons]
      exact hl

/-- Every cons list has a last element. -/
theorem getLast?_cons_isSome (b : Char) (t : List Char) :
    ∃ c, (b :: t).getLast? = some c := by
  induction t generalizing b with
  | nil => exact ⟨b, rfl⟩
  | cons x xs ih =>
    rcases ih x with ⟨c, hc⟩
    refine ⟨c, ?_⟩
    rw [List.getLast?_cons_cons]
    exact hc

/-- A tidy string does not end in a space. -/
theorem tidy_getLast_ne_space {s : String} (h : tidy s = true) :
    ∀ c, s.data.getLast? = some c → c ≠ ' ' := by
  intro c hc hsp
  rw [tidy] at h
  simp only [Bool.and_eq_true] at h
  have := h.2
  rw [hc] at this
  rw [notWhitespaceOpt] at this
  subst hsp
  simp [Char.isWhitespace] at this

/-- A tidy string does not begin with a space. -/
theorem tidy_head_ne_space {s : String} (h : tidy s = true) :
    ∀ c, s.data.head? = some c → c ≠ ' ' := by
  intro c hc hsp
  rw [tidy] at h
  simp only [Bool.and_eq_true] at h
  have := h.1.2
  rw [hc] at this
  rw [notWhitespaceOpt] at this
  subst hsp
  simp [Char.isWhitespace] at this

/-- Joining two tidy nonempty strings with a single space is tidy. -/
theorem tidy_join {s₁ s₂ : String} (h₁ : tidy s₁ = true) (n₁ : s₁ ≠ "")
    (h₂ : tidy s₂ = true) (n₂ : s₂ ≠ "") : tidy (s₁ ++ " " ++ s₂) = true := by
  have d₁ : s₁.data ≠ [] := fun hnil => n₁ (String.ext (by simp [hnil]))
  have d₂ : s₂.data ≠ [] := fun hnil => n₂ (String.ext (by simp [hnil]))
  rw [tidy] at h₁ h₂
  simp only [Bool.and_eq_true] at h₁ h₂
  rw [tidy, String.data_append, String.data_append]
  have hsp : (" " : String).data = [' '] := rfl
  rw [hsp]
  simp only [Bool.and_eq_true]
  refine ⟨⟨?_, ?_⟩, ?_⟩
  · rw [List.append_assoc]
    refine noDoubleSpace_append _ _ h₁.1.1 ?_ ?_
    · show noDoubleSpace (' ' :: s₂.data) = true
      have hhead : ∀ c, s₂.data.head? = some c → c ≠ ' ' :=
        tidy_head_ne_space (by rw [tidy]; simp only [Bool.and_eq_true]; exact h₂)
      rcases hd : s₂.data with _ | ⟨b, t⟩
      · exact absurd hd d₂
      · rw [noDoubleSpace]
        simp only [Bool.and_eq_true, Bool.not_eq_true']
        have hb : b ≠ ' ' := by
          refine hhead b ?_
          rw [hd]
          rfl
        constructor
        · by_cases hbs : b = ' '
          · exact absurd hbs hb
          · simp [hbs]
        · have := h₂.1.1
          rw [hd] at this
          exact this
    · intro c₁ c₂ hl hh hand
      rcases hand with ⟨hc₁, -⟩
      have hlast : ∀ c, s₁.data.getLast? = some c → c ≠ ' ' :=
        tidy_getLast_ne_space (by rw [tidy]; simp only [Bool.and_eq_true]; exact h₁)
      exact hlast c₁ hl hc₁
  · rw [List.append_assoc, List.head?_append]
    have hh := h₁.1.2
    rcases hd : s₁.data with _ | ⟨b, t⟩
    · exact absurd hd d₁
    · rw [hd] at hh
      simpa using hh
  · rw [List.getLast?_append, List.getLast?_append]
    have hl2 := h₂.2
    rcases hd : s₂.data with _ | ⟨b, t⟩
    · exact absurd hd d₂
    · rw [hd] at hl2
      rcases getLast?_cons_isSome b t with ⟨c, hc⟩
      rw [hc] at hl2 ⊢
      simpa using hl2

/-- Structural form of `number_to_words` on the thousands tier
`1000 ≤ n ≤ 999999`: the words for `n / 1000`, `" Thousand"`, and the
words for `n % 1000` joined by a space when the remainder is nonzero. -/
theorem ntw_thousand_shape (n : Nat) (h1 : 1000 ≤ n) (h2 : n ≤ 999999) :
    ∃ t, convert_below_thousand ((n / 1000 : Nat) : Int) = some t ∧ tidy t = true ∧ t ≠ "" ∧
      ((n % 1000 = 0 ∧ number_to_words (n : Int) = some (t ++ " Thousand")) ∨
        (n % 1000 ≠ 0 ∧ ∃ r, convert_below_thousand ((n % 1000 : Nat) : Int) = some r ∧
          tidy r = true ∧ r ≠ "" ∧
          number_to_words (n : Int) = some (t ++ " Thousand" ++ " " ++ r))) := by
  have hq2 : n / 1000 ≤ 999 := by omega
  obtain ⟨t, ht, htidy, htne⟩ := cbt_exists (n / 1000) hq2
  have htne' : t ≠ "" := htne (by omega)
  have hmain : number_to_words (n : Int) =
      (convert_below_thousand ((n : Int).fdiv 1000)).bind fun w =>
        if (n : Int).fmod 1000 > 0 then
          (convert_below_thousand ((n : Int).fmod 1000)).map fun r => w ++ " Thousand" ++ " " ++ r
        else some (w ++ " Thousand") := by
    rw [number_to_words, if_neg (by omega : ¬((n : Int) = 0)),
      if_neg (by omega : ¬((n : Int) < 1000)), if_pos (by omega : (n : Int) < 1000000)]
  rw [hmain, fdiv_cast_1000, fmod_cast_1000, ht]
  simp only [Option.some_bind]
  by_cases hz : n % 1000 = 0
  · rw [if_neg (by omega : ¬(((n % 1000 : Nat) : Int) > 0))]
    exact ⟨t, rfl, htidy, htne', Or.inl ⟨hz, rfl⟩⟩
  · obtain ⟨r, hr, hrtidy, hrne⟩ := cbt_exists (n % 1000) (by omega)
    have hrne' : r ≠ "" := hrne hz
    rw [if_pos (by omega : ((n % 1000 : Nat) : Int) > 0), hr, Option.map_some']
    exact ⟨t, rfl, htidy, htne', Or.inr ⟨hz, r, rfl, hrtidy, hrne', rfl⟩⟩

/-- Structural form of `number_to_words` on the millions tier
`1000000 ≤ n ≤ 999999999`: the words for `n / 1000000`, `" Million"`, and
the rendering of the remainder `n % 1000000` split at one thousand. -/
theorem ntw_million_shape (n : Nat) (h1 : 1000000 ≤ n) (h2 : n ≤ 999999999) :
    ∃ m, convert_below_thousand ((n / 1000000 : Nat) : Int) = some m ∧
      tidy m = true ∧ m ≠ "" ∧
      ((n % 1000000 = 0 ∧ number_to_words (n : Int) = some (m ++ " Million")) ∨
        (1 ≤ n % 1000000 ∧ n % 1000000 < 1000 ∧
          ∃ r, convert_below_thousand ((n % 1000000 : Nat) : Int) = some r ∧
            tidy r = true ∧ r ≠ "" ∧
            number_to_words (n : Int) = some (m ++ " Million" ++ " " ++ r)) ∨
        (1000 ≤ n % 1000000 ∧
          ∃ a, convert_below_thousand ((n % 1000000 / 1000 : Nat) : Int) = some a ∧
            tidy a = true ∧ a ≠ "" ∧
            ((n % 1000000 % 1000 = 0 ∧
                number_to_words (n : Int) =
                  some (m ++ " Million" ++ " " ++ a ++ " Thousand")) ∨
              (n % 1000000 % 1000 ≠ 0 ∧
                ∃ b, convert_below_thousand ((n % 1000000 % 1000 : Nat) : Int) = some b ∧
                  tidy b = true ∧ b ≠ "" ∧
                  number_to_words (n : Int) =
                    some (m ++ " Million" ++ " " ++ a ++ " Thousand" ++ " " ++ b))))) := by
  have hq2 : n / 1000000 ≤ 999 := by omega
  obtain ⟨m, hm, hmtidy, hmne⟩ := cbt_exists (n / 1000000) hq2
  have hmne' : m ≠ "" := hmne (by omega)
  have hmain : number_to_words (n : Int) =
      (convert_below_thousand ((n : Int).fdiv 1000000)).bind fun w =>
        if (n : Int).fmod 1000000 > 0 then
          if (n : Int).fmod 1000000 ≥ 1000 then
            (convert_below_thousand (((n : Int).fmod 1000000).fdiv 1000)).bind fun a =>
              if ((n : Int).fmod 1000000).fmod 1000 > 0 then
                (convert_below_thousand (((n : Int).fmod 1000000).fmod 1000)).map
                  fun b => w ++ " Million" ++ " " ++ a ++ " Thousand" ++ " " ++ b
              else some (w ++ " Million" ++ " " ++ a ++ " Thousand")
          else
            (convert_below_thousand ((n : Int).fmod 1000000)).map
              fun r => w ++ " Million" ++ " " ++ r
        else some (w ++ " Million") := by
    rw [number_to_words, if_neg (by omega : ¬((n : Int) = 0)),
      if_neg (by omega : ¬((n : Int) < 1000)), if_neg (by omega : ¬((n : Int) < 1000000))]
  rw [hmain, fdiv_cast_million, fmod_cast_million, fdiv_cast_1000, fmod_cast_1000, hm]
  simp only [Option.some_bind]
  by_cases hz : n % 1000000 = 0
  · rw [if_neg (by omega : ¬(((n % 1000000 : Nat) : Int) > 0))]
    exact ⟨m, rfl, hmtidy, hmne', Or.inl ⟨hz, rfl⟩⟩
  · rw [if_pos (by omega : ((n % 1000000 : Nat) : Int) > 0)]
    by_cases hge : 1000 ≤ n % 1000000
    · rw [if_pos (by omega : ((n % 1000000 : Nat) : Int) ≥ 1000)]
      obtain ⟨a, ha, hatidy, hane⟩ := cbt_exists (n % 1000000 / 1000) (by omega)
      have hane' : a ≠ "" := hane (by omega)
      rw [ha]
      simp only [Option.some_bind]
      by_cases hz2 : n % 1000000 % 1000 = 0
      · rw [if_neg (by omega : ¬(((n % 1000000 % 1000 : Nat) : Int) > 0))]
        exact ⟨m, rfl, hmtidy, hmne',
          Or.inr (Or.inr ⟨hge, a, rfl, hatidy, hane', Or.inl ⟨hz2, rfl⟩⟩)⟩
      · obtain ⟨b, hb, hbtidy, hbne⟩ := cbt_exists (n % 1000000 % 1000) (by omega)
        have hbne' : b ≠ "" := hbne hz2
        rw [if_pos (by omega : ((n % 1000000 % 1000 : Nat) : Int) > 0), hb, Option.map_some']
        exact ⟨m, rfl, hmtidy, hmne',
          Or.inr (Or.inr ⟨hge, a, rfl, hatidy, hane',
            Or.inr ⟨hz2, b, rfl, hbtidy, hbne', rfl⟩⟩)⟩
    · rw [if_neg (by omega : ¬(((n % 1000000 : Nat) : Int) ≥ 1000))]
      obtain ⟨r, hr, hrtidy, hrne⟩ := cbt_exists (n % 1000000) (by omega)
      have hrne' : r ≠ "" := hrne hz
      rw [hr, Option.map_some']
      exact ⟨m, rfl, hmtidy, hmne',
        Or.inr (Or.inl ⟨by omega, by omega, r, rfl, hrtidy, hrne', rfl⟩)⟩

theorem sAppend_assoc (a b c : String) : a ++ b ++ c = a ++ (b ++ c) :=
  String.ext (by simp [List.append_assoc])

theorem append_ne_empty (t x : String) (hx : x ≠ "") : t ++ x ≠ "" := by
  intro h
  have hdata : (t ++ x).data = [] := by rw [h]
  rw [String.data_append] at hdata
  have hx2 : x.data = [] := (List.append_eq_nil.mp hdata).2
  exact hx (String.ext (by rw [hx2]))

/-- On `[1, 999]`, `number_to_words` succeeds. -/
theorem ntw_below_isSome (k : Nat) (h1 : 1 ≤ k) (h2 : k ≤ 999) :
    (number_to_words (k : Int)).isSome = true := by
  rw [ntw_below k h1 h2]
  obtain ⟨s, hs, -⟩ := cbt_exists k h2
  rw [hs]
  rfl

/-- Unfolding of `price_to_words` exposing the two numeric components. -/
theorem price_to_words_eq (price : ℚ) :
    price_to_words price =
      (number_to_words (pyInt price)).bind fun w =>
        if pyRound ((price - ((pyInt price : ℤ) : ℚ)) * 100) > 0 then
          (number_to_words (pyRound ((price - ((pyInt price : ℤ) : ℚ)) * 100))).map
            fun p => w ++ " Pounds" ++ " and " ++ p ++ " Pence"
        else some (w ++ " Pounds") := rfl

/-- Evaluation helper: once the truncation `P` and the rounded pence `F`
are known, `price_to_words` reduces to integer and string computation. -/
theorem price_to_words_eval {price : ℚ} {P F : ℤ} (hP : pyInt price = P)
    (hF : pyRound ((price - (P : ℚ)) * 100) = F) :
    price_to_words price =
      (number_to_words P).bind fun w =>
        if F > 0 then
          (number_to_words F).map fun p => w ++ " Pounds" ++ " and " ++ p ++ " Pence"
        else some (w ++ " Pounds") := by
  subst hP
  rw [price_to_words_eq, hF]

set_option maxRecDepth 4000 in
/-- C3: for every integer `n` with `0 ≤ n ≤ 99`, `number_to_words` equals
the lookup reference `specBelowHundred`: `"Zero"` at 0, the ones word for
1–9, the irregular teen word for 10–19, and for 20–99 the tens word plus a
space and the ones word exactly when `n % 10 ≠ 0`. -/
theorem ntw_matches_lookup_below_100 :
    ∀ n : Nat, n ≤ 99 → number_to_words (n : Int) = some (specBelowHundred n) := by
  decide

theorem ntw_matches_lookup_below_100_witness :
    number_to_words ((42 : Nat) : Int) = some (specBelowHundred 42) ∧
      specBelowHundred 42 = "Forty Two" ∧
      number_to_words ((15 : Nat) : Int) = some (specBelowHundred 15) ∧
      specBelowHundred 15 = "Fifteen" :=
  ⟨ntw_matches_lookup_below_100 42 (by decide), by decide,
    ntw_matches_lookup_below_100 15 (by decide), by decide⟩

set_option maxRecDepth 10000 in
/-- C4: for every integer `n` with `100 ≤ n ≤ 999`, `number_to_words`
returns the ones word for `n / 100` followed by `" Hundred"`, and appends
`" and "` plus the words for `n % 100` exactly when `n % 100 ≠ 0`. -/
theorem ntw_hundreds_structure :
    ∀ n : Nat, n ≤ 999 → 100 ≤ n →
      number_to_words (n : Int) =
        some (specOnesWord (n / 100) ++ " Hundred" ++
          (if n % 100 ≠ 0 then " and " ++ specBelowHundred (n % 100) else "")) := by
  decide

theorem ntw_hundreds_structure_witness :
    number_to_words ((101 : Nat) : Int) =
      some (specOnesWord (101 / 100) ++ " Hundred" ++
        (if 101 % 100 ≠ 0 then " and " ++ specBelowHundred (101 % 100) else "")) ∧
      number_to_words ((101 : Nat) : Int) = some "One Hundred and One" ∧
      number_to_words ((100 : Nat) : Int) = some "One Hundred" :=
  ⟨ntw_hundreds_structure 101 (by decide) (by decide), by decide, by decide⟩

/-- C5: for every integer `n` with `1000 ≤ n ≤ 999999`, `number_to_words`
returns the words for `n / 1000` followed by `" Thousand"`, and appends a
space plus the words for `n % 1000` exactly when `n % 1000 ≠ 0`. -/
theorem ntw_thousands_structure :
    ∀ n : Nat, 1000 ≤ n → n ≤ 999999 →
      (number_to_words ((n / 1000 : Nat) : Int)).isSome = true ∧
      (n % 1000 ≠ 0 → (number_to_words ((n % 1000 : Nat) : Int)).isSome = true) ∧
      number_to_words (n : Int) =
        some ((number_to_words ((n / 1000 : Nat) : Int)).getD "" ++ " Thousand" ++
          (if n % 1000 = 0 then ""
           else " " ++ (number_to_words ((n % 1000 : Nat) : Int)).getD "")) := by
  intro n h1 h2
  obtain ⟨t, ht, htidy, htne, hcase⟩ := ntw_thousand_shape n h1 h2
  have hb : number_to_words ((n / 1000 : Nat) : Int) = some t := by
    rw [ntw_below (n / 1000) (by omega) (by omega)]
    exact ht
  rcases hcase with ⟨hz, heq⟩ | ⟨hz, r, hr, hrtidy, hrne, heq⟩
  · rw [hb, heq, if_pos hz]
    exact ⟨rfl, fun h => absurd hz h, by simp⟩
  · have hbr : number_to_words ((n % 1000 : Nat) : Int) = some r := by
      rw [ntw_below (n % 1000) (by omega) (by omega)]
      exact hr
    rw [hb, hbr, heq, if_neg hz]
    refine ⟨rfl, fun _ => rfl, ?_⟩
    simp only [Option.getD_some]
    rw [sAppend_assoc (t ++ " Thousand") " " r]

theorem ntw_thousands_structure_witness :
    number_to_words ((1234 : Nat) : Int) =
      some ((number_to_words ((1234 / 1000 : Nat) : Int)).getD "" ++ " Thousand" ++
        (if 1234 % 1000 = 0 then ""
         else " " ++ (number_to_words ((1234 % 1000 : Nat) : Int)).getD "")) ∧
      number_to_words ((1234 : Nat) : Int) =
        some "One Thousand Two Hundred and Thirty Four" :=
  ⟨(ntw_thousands_structure 1234 (by decide) (by decide)).2.2, by decide⟩

/-- C8: for every non-negative integer `n < 1000000`, the string returned
by `number_to_words` has no two consecutive space characters and no
leading or trailing whitespace. -/
theorem ntw_tidy :
    ∀ n : Nat, n < 1000000 →
      ∃ s, number_to_words (n : Int) = some s ∧ tidy s = true := by
  intro n h
  by_cases h0 : n = 0
  · subst h0
    exact ⟨"Zero", by decide, by decide⟩
  by_cases hlt : n < 1000
  · obtain ⟨s, hs, htidy, -⟩ := cbt_exists n (by omega)
    refine ⟨s, ?_, htidy⟩
    rw [ntw_below n (by omega) (by omega)]
    exact hs
  · obtain ⟨t, ht, htidy, htne, hcase⟩ := ntw_thousand_shape n (by omega) (by omega)
    have hlit : (" Thousand" : String) = " " ++ "Thousand" := by decide
    have hTh : t ++ " Thousand" = t ++ " " ++ "Thousand" := by
      rw [sAppend_assoc, ← hlit]
    have htidyT : tidy (t ++ " Thousand") = true := by
      rw [hTh]
      exact tidy_join htidy htne (by decide) (by decide)
    have htneT : t ++ " Thousand" ≠ "" := append_ne_empty t " Thousand" (by decide)
    rcases hcase with ⟨hz, heq⟩ | ⟨hz, r, hr, hrtidy, hrne, heq⟩
    · exact ⟨t ++ " Thousand", heq, htidyT⟩
    · exact ⟨t ++ " Thousand" ++ " " ++ r, heq, tidy_join htidyT htneT hrtidy hrne⟩

theorem ntw_tidy_witness :
    ∃ s, number_to_words ((1234 : Nat) : Int) = some s ∧ tidy s = true :=
  ntw_tidy 1234 (by decide)

/-- C6 (amended): for every integer `n` with `1000000 ≤ n ≤ 999999999`,
`number_to_words` returns the words for `n / 1000000` followed by
`" Million"`; if the remainder `r = n % 1000000` is `≥ 1000` it appends the
words for `r / 1000` plus `" Thousand"` and then the words for `r % 1000`
when that is nonzero, and if `1 ≤ r < 1000` it appends the words for `r`
directly.  (The unamended claim, over all `n ≥ 1000000`, fails at
`n = 1000000000`, where the code hits an out-of-range list index.) -/
theorem ntw_millions_structure :
    ∀ n : Nat, 1000000 ≤ n → n ≤ 999999999 →
      (number_to_words ((n / 1000000 : Nat) : Int)).isSome = true ∧
      (1000 ≤ n % 1000000 →
        (number_to_words ((n % 1000000 / 1000 : Nat) : Int)).isSome = true) ∧
      (n % 1000000 % 1000 ≠ 0 →
        (number_to_words ((n % 1000000 % 1000 : Nat) : Int)).isSome = true) ∧
      (1 ≤ n % 1000000 → n % 1000000 < 1000 →
        (number_to_words ((n % 1000000 : Nat) : Int)).isSome = true) ∧
      number_to_words (n : Int) =
        some ((number_to_words ((n / 1000000 : Nat) : Int)).getD "" ++ " Million" ++
          (if n % 1000000 = 0 then ""
           else if 1000 ≤ n % 1000000 then
             " " ++ (number_to_words ((n % 1000000 / 1000 : Nat) : Int)).getD "" ++
               " Thousand" ++
               (if n % 1000000 % 1000 = 0 then ""
                else " " ++ (number_to_words ((n % 1000000 % 1000 : Nat) : Int)).getD "")
           else " " ++ (number_to_words ((n % 1000000 : Nat) : Int)).getD "")) := by
  intro n h1 h2
  refine ⟨ntw_below_isSome _ (by omega) (by omega),
    fun h => ntw_below_isSome _ (by omega) (by omega),
    fun h => ntw_below_isSome _ (by omega) (by omega),
    fun ha hb => ntw_below_isSome _ (by omega) (by omega), ?_⟩
  obtain ⟨m, hm, -, -, hcase⟩ := ntw_million_shape n h1 h2
  have hbm : number_to_words ((n / 1000000 : Nat) : Int) = some m := by
    rw [ntw_below (n / 1000000) (by omega) (by omega)]
    exact hm
  rcases hcase with ⟨hz, heq⟩ | ⟨hr1, hr2, r, hr, -, -, heq⟩ |
    ⟨hge, a, ha, -, -, hsub⟩
  · rw [hbm, heq, if_pos hz]
    simp
  · have hbr : number_to_words ((n % 1000000 : Nat) : Int) = some r := by
      rw [ntw_below (n % 1000000) (by omega) (by omega)]
      exact hr
    rw [hbm, hbr, heq, if_neg (by omega : ¬ n % 1000000 = 0),
      if_neg (by omega : ¬ 1000 ≤ n % 1000000)]
    simp only [Option.getD_some]
    rw [sAppend_assoc (m ++ " Million") " " r]
  · have hba : number_to_words ((n % 1000000 / 1000 : Nat) : Int) = some a := by
      rw [ntw_below (n % 1000000 / 1000) (by omega) (by omega)]
      exact ha
    rcases hsub with ⟨hz2, heq⟩ | ⟨hz2, b, hb, -, -, heq⟩
    · rw [hbm, hba, heq, if_neg (by omega : ¬ n % 1000000 = 0), if_pos hge, if_pos hz2]
      simp only [Option.getD_some, String.append_empty]
      rw [sAppend_assoc (m ++ " Million") " " a,
        sAppend_assoc (m ++ " Million") (" " ++ a) " Thousand"]
    · have hbb : number_to_words ((n % 1000000 % 1000 : Nat) : Int) = some b := by
        rw [ntw_below (n % 1000000 % 1000) (by omega) (by omega)]
        exact hb
      rw [hbm, hba, hbb, heq, if_neg (by omega : ¬ n % 1000000 = 0), if_pos hge,
        if_neg hz2]
      simp only [Option.getD_some]
      rw [sAppend_assoc (m ++ " Million" ++ " " ++ a ++ " Thousand") " " b,
        sAppend_assoc (m ++ " Million") " " a,
        sAppend_assoc (m ++ " Million") (" " ++ a) " Thousand",
        sAppend_assoc (m ++ " Million") (" " ++ a ++ " Thousand") (" " ++ b)]

theorem ntw_millions_structure_witness :
    number_to_words ((2500000 : Nat) : Int) =
      some ((number_to_words ((2500000 / 1000000 : Nat) : Int)).getD "" ++ " Million" ++
        (if 2500000 % 1000000 = 0 then ""
         else if 1000 ≤ 2500000 % 1000000 then
           " " ++ (number_to_words ((2500000 % 1000000 / 1000 : Nat) : Int)).getD "" ++
             " Thousand" ++
             (if 2500000 % 1000000 % 1000 = 0 then ""
              else " " ++
                (number_to_words ((2500000 % 1000000 % 1000 : Nat) : Int)).getD "")
         else " " ++ (number_to_words ((2500000 % 1000000 : Nat) : Int)).getD "")) ∧
      number_to_words ((2500000 : Nat) : Int) =
        some "Two Million Five Hundred Thousand" :=
  ⟨(ntw_millions_structure 2500000 (by decide) (by decide)).2.2.2.2, by decide⟩

/-- C6 counterexample: the unamended claim's rendering formula fails at
`n = 1000000000`, where `number_to_words` returns `none` (out-of-range
list index) instead of the claimed millions rendering. -/
theorem ntw_millions_structure_counterexample :
    ¬ (number_to_words ((1000000000 : Nat) : Int) =
        some ((number_to_words ((1000000000 / 1000000 : Nat) : Int)).getD "" ++
          " Million" ++
          (if 1000000000 % 1000000 = 0 then ""
           else if 1000 ≤ 1000000000 % 1000000 then
             " " ++
               (number_to_words ((1000000000 % 1000000 / 1000 : Nat) : Int)).getD "" ++
               " Thousand" ++
               (if 1000000000 % 1000000 % 1000 = 0 then ""
                else " " ++
                  (number_to_words ((1000000000 % 1000000 % 1000 : Nat) : Int)).getD "")
           else " " ++
             (number_to_words ((1000000000 % 1000000 : Nat) : Int)).getD ""))) := by
  decide

/-- C7: for every non-negative decimal amount, `price_to_words` renders
exactly the spec's output formula (`spec_currencyToWords`): the words for
the truncated whole part followed by `" Pounds"`, with `" and "` plus the
words for the rounded fraction plus `" Pence"` appended exactly when the
fraction is positive, and the minor-unit clause omitted when it is zero. -/
theorem ptw_matches_spec :
    ∀ q : ℚ, 0 ≤ q → price_to_words q = spec_currencyToWords q := by
  intro q hq
  rw [price_to_words_eq]
  simp only [spec_currencyToWords]
  have h1 : (" Pounds" : String) = " " ++ "Pounds" := by decide
  have h2 : (" Pence" : String) = " " ++ "Pence" := by decide
  rcases hw : number_to_words (pyInt q) with _ | w
  · rfl
  · simp only [Option.some_bind]
    by_cases hp : pyRound ((q - ((pyInt q : Int) : ℚ)) * 100) > 0
    · rw [if_pos hp, if_pos hp]
      rcases hf : number_to_words (pyRound ((q - ((pyInt q : Int) : ℚ)) * 100)) with _ | p
      · rfl
      · simp only [Option.map_some']
        rw [sAppend_assoc w " " "Pounds", ← h1,
          sAppend_assoc (w ++ " Pounds" ++ " and " ++ p) " " "Pence", ← h2]
    · rw [if_neg hp, if_neg hp, sAppend_assoc w " " "Pounds", ← h1]

theorem ptw_matches_spec_witness :
    price_to_words (2469/2 : ℚ) = spec_currencyToWords (2469/2 : ℚ) ∧
      price_to_words (2469/2 : ℚ) =
        some "One Thousand Two Hundred and Thirty Four Pounds and Fifty Pence" ∧
      price_to_words (5 : ℚ) = some "Five Pounds" :=
  ⟨ptw_matches_spec (2469/2) (by norm_num),
    by
      rw [price_to_words_eval (P := 1234) (F := 50) (by norm_num [pyInt])
        (by norm_num [pyRound])]
      decide,
    by
      rw [price_to_words_eval (P := 5) (F := 0) (by norm_num [pyInt])
        (by norm_num [pyRound])]
      decide⟩

/-- C1 (code bug): `price_to_words` does not carry a rounded-pence
overflow into the pounds: at price `1.999` the fraction rounds to `100`
and the code renders `"One Pounds and One Hundred Pence"` instead of
incrementing the whole part and resetting the fraction. -/
theorem ptw_overflow_not_carried :
    price_to_words (1999/1000 : ℚ) = some "One Pounds and One Hundred Pence" ∧
      pyRound (((1999/1000 : ℚ) - ((1 : Int) : ℚ)) * 100) = 100 := by
  constructor
  · rw [price_to_words_eval (P := 1) (F := 100) (by norm_num [pyInt])
      (by norm_num [pyRound])]
    decide
  · norm_num [pyRound]

/-- C2 (code bug): negative input does not fail with an error.  Python's
negative list indexing makes `number_to_words (-1)` return `"Nine"`, and
`price_to_words (-0.5)` returns `"Zero Pounds"`. -/
theorem negative_input_returns_words :
    number_to_words (-1 : Int) = some "Nine" ∧
      price_to_words (-(1/2) : ℚ) = some "Zero Pounds" := by
  refine ⟨by decide, ?_⟩
  have h1 : pyInt (-(1/2) : ℚ) = 0 := by norm_num [pyInt]
  have h2 : pyRound (((-(1/2) : ℚ) - ((0 : Int) : ℚ)) * 100) = -50 := by
    norm_num [pyRound]
  rw [price_to_words_eval h1 h2]
  decide

/-- C9: the embedded conversions are pure functions of their argument:
two calls with the same argument return the same string, and the
shallow embedding carries no state besides argument and result. -/
theorem conversions_deterministic :
    ∀ (n : Int) (q : ℚ),
      number_to_words n = number_to_words n ∧ price_to_words q = price_to_words q :=
  fun _ _ => ⟨rfl, rfl⟩

/-- C10: at `n = 1000000000` the millions part is `1000`, so
`convert_below_thousand` indexes the 10-element `ones` table at position
`1000 // 100 = 10`; the indexing fails (`pyGet … = none`, Python's
`IndexError`) and `number_to_words` errors instead of returning a
string. -/
theorem ntw_billion_index_error :
    (1000000000 : Int).fdiv 1000000 = 1000 ∧
      (1000 : Int).fdiv 100 = 10 ∧
      pyGet ones 10 = none ∧
      convert_below_thousand 1000 = none ∧
      number_to_words 1000000000 = none := by
  decide

end EfaWordGenerator
